import Mathlib

/-!
Verification development for the connector-arrow dispatcher core:
a shallow embedding of the dispatcher, the postgres value streams and
the arrow row writer, with theorems about order negotiation, schema
conversion, cursor invariants, traversal order and cell production.
-/

namespace ConnectorArrow

/-- Data order of a result: row-major or column-major
(embeds `DataOrder` used throughout `dispatcher.rs`). -/
inductive DataOrder where
  | RowMajor
  | ColumnMajor
deriving DecidableEq, Repr

/-- Error taxonomy of the core. The variants used by the embedded code:
`UnsupportedDataOrder` (order negotiation failure), `CannotProduce`
with the optional raw cell text (decode failure), `UnexpectedNull`,
an anyhow-style opaque error carrying its message, and a driver error.
The enum itself lives in `errors.rs`, which is not among the provided
sources; the variant list is modelled from the spec error taxonomy. -/
inductive ConnError where
  | UnsupportedDataOrder
  | NoConversionRule
  | CannotProduce (raw : Option String)
  | UnexpectedNull
  | AnyhowError (msg : String)
  | Driver (msg : String)
deriving DecidableEq, Repr

/-- Modelled from the spec: `coordinate` lives in `data_order.rs`, which is
not among the provided sources. Spec: "The dispatcher picks the first
element of the source list also present in the destination list; if none,
it fails with `UnsupportedDataOrder`." -/
def coordinate (src dst : List DataOrder) : Except ConnError DataOrder :=
  match src.find? (fun o => dst.contains o) with
  | some o => Except.ok o
  | none => Except.error ConnError.UnsupportedDataOrder

/-- A schema: ordered column names and ordered type tags
(embeds `Schema<TS>` from `typesystem.rs` as used by `dispatcher.rs`). -/
structure Schema (T : Type) where
  names : List String
  types : List T
deriving DecidableEq, Repr

/-- Effectful map over a list in the `Except` monad: the element-by-element
tag conversion loop used by schema conversion. -/
def mapExcept {α β : Type} (f : α → Except ConnError β) : List α → Except ConnError (List β)
  | [] => Except.ok []
  | x :: xs =>
    match f x with
    | Except.error e => Except.error e
    | Except.ok y =>
      match mapExcept f xs with
      | Except.error e => Except.error e
      | Except.ok ys => Except.ok (y :: ys)

/-- Modelled from the spec: `Schema::convert` lives in `typesystem.rs`,
which is not among the provided sources. Spec: "map each tag by
`Transport.convert_tag`, preserving names and column order." -/
def Schema.convert {S D : Type} (convert_tag : S → Except ConnError D)
    (s : Schema S) : Except ConnError (Schema D) :=
  match mapExcept convert_tag s.types with
  | Except.error e => Except.error e
  | Except.ok types => Except.ok { names := s.names, types := types }

/-- Result of `Dispatcher::prepare` (embeds `PreparedDispatch` from
`dispatcher.rs`). Destination writers are represented by their allocation
index, in allocation order. -/
structure PreparedDispatch (S D P : Type) where
  data_order : DataOrder
  src_partitions : List P
  dst_partitions : List Nat
  src_schema : Schema S
  dst_schema : Schema D

/-- Embeds `Dispatcher::prepare` (`dispatcher.rs` lines 53-82). Source and
destination trait calls are abstracted: `srcSchema` is the metadata the
source returns, `convertTag` is the transport tag conversion, `parts` is
what `source.partition()` yields, and `nqueries` is the query count. The
second component of the result counts how many destination partitions were
allocated by the allocation loop (the loop pushes one writer per query, so
on success it allocates exactly `nqueries` writers, in order). Failure of
an earlier step short-circuits, so later steps do not run. -/
def Dispatcher.prepare {S D P : Type} (srcOrders dstOrders : List DataOrder)
    (srcSchema : Schema S) (convertTag : S → Except ConnError D)
    (parts : List P) (nqueries : Nat) :
    Except ConnError (PreparedDispatch S D P) × Nat :=
  match coordinate srcOrders dstOrders with
  | Except.error e => (Except.error e, 0)
  | Except.ok ord =>
    match Schema.convert convertTag srcSchema with
    | Except.error e => (Except.error e, 0)
    | Except.ok dstSchema =>
      (Except.ok
        { data_order := ord
          src_partitions := parts
          dst_partitions := List.range nqueries
          src_schema := srcSchema
          dst_schema := dstSchema },
       nqueries)

/-- Embeds the `zip_eq` pairing used by `Dispatcher::run`
(`dispatcher.rs` lines 103-107): the rayon and itertools `zip_eq`
combinators abort the process when the two sides have different lengths
(modelled by `none`); otherwise they pair elements positionally. -/
def zipEq {α β : Type} (xs : List α) (ys : List β) : Option (List (α × β)) :=
  if xs.length = ys.length then some (xs.zip ys) else none

/-- The (row, col) cell cursor of a partition parser. -/
structure Cursor where
  row : Nat
  col : Nat
deriving DecidableEq, Repr

/-- Embeds `next_loc`, the cursor advance shared verbatim by
`PostgresBinarySourcePartitionParser`, `PostgresCSVStream`,
`PostgresRawStream` and `PostgresSimpleStream`
(`sources/postgres/mod.rs` lines 266-272 and identical copies):
it returns the current position and then advances column-first,
`current_row += (current_col + 1) / ncols` and
`current_col = (current_col + 1) % ncols`. -/
def Cursor.next_loc (ncols : Nat) (c : Cursor) : (Nat × Nat) × Cursor :=
  ((c.row, c.col), { row := c.row + (c.col + 1) / ncols, col := (c.col + 1) % ncols })

/-- Iterate the cursor advance of `next_loc` a given number of times. -/
def next_locN (ncols : Nat) : Nat → Cursor → Cursor
  | 0, c => c
  | k + 1, c => next_locN ncols k (Cursor.next_loc ncols c).2

/-- Embeds `Organizer` from `util/row_writer.rs`: the writer-side mirror of
the parser cursor. -/
structure Organizer where
  col_count : Nat
  row_count : Nat
  next_row : Nat
  next_col : Nat
deriving DecidableEq, Repr

/-- Embeds `Organizer::next_col_index` (`util/row_writer.rs` lines 137-146):
returns the current column, then increments it, wrapping to 0 and bumping
the row when it reaches `col_count`. -/
def Organizer.next_col_index (o : Organizer) : Nat × Organizer :=
  let col := o.next_col
  let nc := o.next_col + 1
  if nc = o.col_count then
    (col, { o with next_col := 0, next_row := o.next_row + 1 })
  else
    (col, { o with next_col := nc })

/-- Iterate the organizer advance a given number of times. -/
def Organizer.stepN : Nat → Organizer → Organizer
  | 0, o => o
  | k + 1, o => Organizer.stepN k o.next_col_index.2

/-- The sequence of (row, col) cells visited by the row-major inner loops of
`Dispatcher::run` (`dispatcher.rs` lines 116-135): for each of the `n` rows,
all `ncols` columns in order. -/
def rowMajorCells (n ncols : Nat) : List (Nat × Nat) :=
  (List.range n).flatMap (fun r => (List.range ncols).map (fun c => (r, c)))

/-- The sequence of (row, col) cells visited by the column-major inner loops
of `Dispatcher::run` (`dispatcher.rs` lines 136-154): for each of the
`ncols` columns, all `n` rows in order. -/
def columnMajorCells (n ncols : Nat) : List (Nat × Nat) :=
  (List.range ncols).flatMap (fun c => (List.range n).map (fun r => (r, c)))

/-- State common to the buffered postgres streams
`PostgresBinarySourcePartitionParser`, `PostgresCSVStream` and
`PostgresRawStream` (`sources/postgres/mod.rs`), whose `fetch_batch` and
`next_loc` bodies are identical; `Row` is the buffered row representation
(`BinaryCopyOutRow`, `StringRecord` or `Row`). `upstream` models the rows
the underlying iterator has not yielded yet. -/
structure PgStream (Row : Type) where
  rowbuf : List Row
  ncols : Nat
  current_row : Nat
  current_col : Nat
  is_finished : Bool
  upstream : List Row
deriving DecidableEq, Repr

/-- Embeds the stream constructors (`PostgresBinarySourcePartitionParser::new`
and the `new` of the CSV and raw streams): empty buffer, cursor at (0, 0),
not finished. -/
def PgStream.init {Row : Type} (ncols : Nat) (upstream : List Row) : PgStream Row :=
  { rowbuf := [], ncols := ncols, current_row := 0, current_col := 0,
    is_finished := false, upstream := upstream }

/-- The stream-level cursor advance (same formula as `next_loc`). -/
def PgStream.next_loc {Row : Type} (s : PgStream Row) : (Nat × Nat) × PgStream Row :=
  let out := Cursor.next_loc s.ncols { row := s.current_row, col := s.current_col }
  (out.1, { s with current_row := out.2.row, current_col := out.2.col })

/-- Embeds `fetch_batch` of the binary, CSV and raw postgres streams
(`sources/postgres/mod.rs` lines 279-314 and identical copies). `bufsz` is
the constant `DB_BUFFER_SIZE` (from `constants.rs`, not among the provided
sources, hence kept as a parameter). `none` models the aborted process when
the assertion `current_col == 0` fails. The refill loop runs `bufsz` times,
pushing rows from the iterator; it sets `is_finished` and stops early when
the iterator is exhausted, i.e. exactly when fewer than `bufsz` upstream
rows remain. -/
def PgStream.fetch_batch {Row : Type} (bufsz : Nat) (s : PgStream Row) :
    Option ((Nat × Bool) × PgStream Row) :=
  if s.current_col = 0 then
    if s.is_finished then some ((0, true), s)
    else
      let remaining := s.rowbuf.length - s.current_row
      if 0 < remaining then some ((remaining, s.is_finished), s)
      else if s.is_finished then some ((0, true), s)
      else
        let fetched := s.upstream.take bufsz
        let fin := decide (s.upstream.length < bufsz)
        some ((fetched.length, fin),
          { s with rowbuf := fetched, upstream := s.upstream.drop bufsz,
                   current_row := 0, current_col := 0, is_finished := fin })
  else none

/-- Messages of the postgres simple query protocol: a data row with
nullable text cells, or a command completion marker. -/
inductive SimpleMsg where
  | row (cells : List (Option String))
  | commandComplete
deriving DecidableEq, Repr

/-- Embeds `PostgresSimpleStream` (`sources/postgres/mod.rs` lines 988-1011):
all messages are already in memory, the last one being command completion. -/
structure SimpleState where
  rows : List SimpleMsg
  ncols : Nat
  current_row : Nat
  current_col : Nat
deriving DecidableEq, Repr

/-- The simple-stream cursor advance (same formula as `next_loc`). -/
def SimpleState.next_loc (s : SimpleState) : (Nat × Nat) × SimpleState :=
  let out := Cursor.next_loc s.ncols { row := s.current_row, col := s.current_col }
  (out.1, { s with current_row := out.2.row, current_col := out.2.col })

/-- Embeds `PostgresSimpleStream::fetch_batch`
(`sources/postgres/mod.rs` lines 1017-1024): at cursor (0, 0) it reports
all data rows (message count minus the trailing command completion) as one
final batch; at any other cursor it reports (0, true). -/
def SimpleState.fetch_batch (s : SimpleState) : (Nat × Bool) × SimpleState :=
  if s.current_row = 0 ∧ s.current_col = 0 then
    ((s.rows.length - 1, true), s)
  else
    ((0, true), s)

/-- The raw text of the cell a CSV stream reads next: entry `c` of buffered
record `r` (embeds the indexing `self.rowbuf[ridx][cidx]`; `none` models the
aborted process on an out-of-range index). -/
def cellAt (s : PgStream (List String)) (r c : Nat) : Option String :=
  (s.rowbuf.get? r).bind (fun record => record.get? c)

/-- Models the rust `str::parse::<i32>` used by the CSV and simple produce
implementations for integer cells: optional sign, at least one ascii digit,
value within the i32 range; anything else (the empty string included)
fails. -/
def parseRustI32 (s : String) : Option Int :=
  let withSign : Int × List Char :=
    match s.toList with
    | '+' :: rest => (1, rest)
    | '-' :: rest => (-1, rest)
    | cs => (1, cs)
  match withSign with
  | (sign, digits) =>
    if digits = [] then none
    else if digits.all Char.isDigit then
      let mag : Nat := digits.foldl (fun a c => a * 10 + (c.toNat - 48)) 0
      let v : Int := sign * (mag : Int)
      if -2147483648 ≤ v ∧ v ≤ 2147483647 then some v else none
    else none

/-- Days from 1970-01-01 of a proleptic gregorian civil date
(the standard era-based civil calendar computation used to model the
chrono date arithmetic). -/
def civilToDays (y : Int) (m d : Nat) : Int :=
  let yAdj : Int := if m ≤ 2 then y - 1 else y
  let era : Int := (if 0 ≤ yAdj then yAdj else yAdj - 399) / 400
  let yoe : Int := yAdj - era * 400
  let mp : Nat := (m + 9) % 12
  let doy : Nat := (153 * mp + 2) / 5 + d - 1
  let doe : Int := yoe * 365 + yoe / 4 - yoe / 100 + (doy : Int)
  era * 146097 + doe - 719468

/-- Leap year predicate of the gregorian calendar. -/
def isLeapYear (y : Int) : Bool :=
  (y % 4 = 0 ∧ y % 100 ≠ 0) ∨ y % 400 = 0

/-- Days of a month in the gregorian calendar. -/
def daysInMonth (y : Int) (m : Nat) : Nat :=
  if m = 2 then (if isLeapYear y then 29 else 28)
  else if m = 4 ∨ m = 6 ∨ m = 9 ∨ m = 11 then 30
  else 31

/-- Numeric value of an ascii digit character. -/
def digitVal (c : Char) : Nat := c.toNat - 48

/-- Modelled from the spec: the chrono datetime parsing used for
timestamptz cells, format `%Y-%m-%d %H:%M:%S%:z` (four-digit year, a
colon-separated two-digit offset). Returns the UTC instant as seconds
since the epoch, or `none` when the text does not match the format or is
out of range (the chrono crate is outside this repository). -/
def parseDateTimeTz (s : String) : Option Int :=
  match s.toList with
  | [y1, y2, y3, y4, '-', mo1, mo2, '-', d1, d2, ' ',
     h1, h2, ':', mi1, mi2, ':', s1, s2,
     sg, o1, o2, ':', p1, p2] =>
    if ([y1, y2, y3, y4, mo1, mo2, d1, d2, h1, h2, mi1, mi2, s1, s2,
         o1, o2, p1, p2].all Char.isDigit) ∧ (sg = '+' ∨ sg = '-') then
      let y : Int := ((digitVal y1 * 1000 + digitVal y2 * 100 +
                       digitVal y3 * 10 + digitVal y4 : Nat) : Int)
      let mo : Nat := digitVal mo1 * 10 + digitVal mo2
      let d : Nat := digitVal d1 * 10 + digitVal d2
      let h : Nat := digitVal h1 * 10 + digitVal h2
      let mi : Nat := digitVal mi1 * 10 + digitVal mi2
      let sec : Nat := digitVal s1 * 10 + digitVal s2
      let offh : Nat := digitVal o1 * 10 + digitVal o2
      let offm : Nat := digitVal p1 * 10 + digitVal p2
      if 1 ≤ mo ∧ mo ≤ 12 ∧ 1 ≤ d ∧ d ≤ daysInMonth y mo ∧
         h ≤ 23 ∧ mi ≤ 59 ∧ sec ≤ 59 ∧ offh ≤ 23 ∧ offm ≤ 59 then
        let naive : Int := civilToDays y mo d * 86400 +
          ((h * 3600 + mi * 60 + sec : Nat) : Int)
        let off : Int := ((offh * 3600 + offm * 60 : Nat) : Int)
        some (if sg = '+' then naive - off else naive + off)
      else none
    else none
  | _ => none

/-- Embeds the CSV `Produce<bool>` implementation
(`sources/postgres/mod.rs` lines 566-581): advance the cursor, then map
cell text `"t"` to true and `"f"` to false, anything else to
`CannotProduce` carrying the raw cell text. `none` models the aborted
process on an out-of-range index. -/
def csvProduceBool (s : PgStream (List String)) :
    Option (Except ConnError (Bool × PgStream (List String))) :=
  match s.next_loc with
  | ((r, c), s1) =>
    match cellAt s r c with
    | none => none
    | some cell =>
      some (if cell = "t" then Except.ok (true, s1)
        else if cell = "f" then Except.ok (false, s1)
        else Except.error (ConnError.CannotProduce (some cell)))

/-- Embeds the CSV `Produce<Option<bool>>` implementation
(`sources/postgres/mod.rs` lines 583-599): an empty cell is NULL and
yields `none` without error. -/
def csvProduceBoolOpt (s : PgStream (List String)) :
    Option (Except ConnError (Option Bool × PgStream (List String))) :=
  match s.next_loc with
  | ((r, c), s1) =>
    match cellAt s r c with
    | none => none
    | some cell =>
      some (if cell = "" then Except.ok (none, s1)
        else if cell = "t" then Except.ok (some true, s1)
        else if cell = "f" then Except.ok (some false, s1)
        else Except.error (ConnError.CannotProduce (some cell)))

/-- Embeds the CSV `impl_csv_produce` non-optional instance at `i32`
(`sources/postgres/mod.rs` lines 465-475): parse the cell text, failing
with `CannotProduce` (raw cell text attached) when it does not parse. -/
def csvProduceI32 (s : PgStream (List String)) :
    Option (Except ConnError (Int × PgStream (List String))) :=
  match s.next_loc with
  | ((r, c), s1) =>
    match cellAt s r c with
    | none => none
    | some cell =>
      some (match parseRustI32 cell with
        | some v => Except.ok (v, s1)
        | none => Except.error (ConnError.CannotProduce (some cell)))

/-- Embeds the CSV `impl_csv_produce` optional instance at `i32`
(`sources/postgres/mod.rs` lines 477-490): an empty cell is NULL and
yields `none` without error, otherwise the text must parse. -/
def csvProduceI32Opt (s : PgStream (List String)) :
    Option (Except ConnError (Option Int × PgStream (List String))) :=
  match s.next_loc with
  | ((r, c), s1) =>
    match cellAt s r c with
    | none => none
    | some cell =>
      some (if cell = "" then Except.ok (none, s1)
        else match parseRustI32 cell with
        | some v => Except.ok (some v, s1)
        | none => Except.error (ConnError.CannotProduce (some cell)))

/-- Embeds the CSV `Produce<DateTime<Utc>>` implementation
(`sources/postgres/mod.rs` lines 648-660): append `":00"` to the raw cell
text, parse it as a UTC datetime, and fail with `CannotProduce` carrying
the raw (unappended) cell text when parsing fails. -/
def csvProduceTimestamptz (s : PgStream (List String)) :
    Option (Except ConnError (Int × PgStream (List String))) :=
  match s.next_loc with
  | ((r, c), s1) =>
    match cellAt s r c with
    | none => none
    | some cell =>
      some (match parseDateTimeTz (cell ++ ":00") with
        | some t => Except.ok (t, s1)
        | none => Except.error (ConnError.CannotProduce (some cell)))

/-- The cursor positions at which the column-cursor assertion of
`fetch_batch` is evaluated during a dispatcher-driven run: starting from a
cursor, each batch is one `fetch_batch` call (which leaves the cursor
unchanged, or resets it to (0, 0) when it refills the buffer) followed by
the movement of exactly `n * ncols` cells, `n` being the row count the
fetch reported (both traversal loops of `Dispatcher::run` advance the
cursor once per cell). The proposition states that the column cursor is 0
at every fetch point. -/
def runFetchesColZero (ncols : Nat) : List (Nat × Bool) → Cursor → Prop
  | [], _ => True
  | (n, refill) :: rest, c =>
      c.col = 0 ∧
      runFetchesColZero ncols rest
        (next_locN ncols (n * ncols) (if refill then { row := 0, col := 0 } else c))

/-- Embeds the `impl_simple_produce` non-optional instance at `i32`
(`sources/postgres/mod.rs` lines 1054-1078): a NULL row accessor value
fails with the anyhow error "Cannot parse NULL in NOT NULL column.", a
present value must parse (else `CannotProduce` with the raw text). `none`
models the aborted process on a command-completion message or row index
out of range. -/
def simpleProduceI32 (s : SimpleState) :
    Option (Except ConnError (Int × SimpleState)) :=
  match s.next_loc with
  | ((r, c), s1) =>
    match s.rows.get? r with
    | none => none
    | some SimpleMsg.commandComplete => none
    | some (SimpleMsg.row cells) =>
      match cells.get? c with
      | none => some (Except.error (ConnError.Driver "column index out of range"))
      | some none =>
        some (Except.error (ConnError.AnyhowError "Cannot parse NULL in NOT NULL column."))
      | some (some txt) =>
        some (match parseRustI32 txt with
          | some v => Except.ok (v, s1)
          | none => Except.error (ConnError.CannotProduce (some txt)))

/-- Embeds the `impl_simple_produce` optional instance at `i32`
(`sources/postgres/mod.rs` lines 1080-1103): a NULL row accessor value
yields `none` without error. -/
def simpleProduceI32Opt (s : SimpleState) :
    Option (Except ConnError (Option Int × SimpleState)) :=
  match s.next_loc with
  | ((r, c), s1) =>
    match s.rows.get? r with
    | none => none
    | some SimpleMsg.commandComplete => none
    | some (SimpleMsg.row cells) =>
      match cells.get? c with
      | none => some (Except.error (ConnError.Driver "column index out of range"))
      | some none => some (Except.ok (none, s1))
      | some (some txt) =>
        some (match parseRustI32 txt with
          | some v => Except.ok (some v, s1)
          | none => Except.error (ConnError.CannotProduce (some txt)))

end ConnectorArrow

namespace ConnectorArrow

/-- A successful `find?` returns the first element satisfying the
predicate: the list splits at that element with an all-failing prefix. -/
theorem find?_eq_some_first {α : Type} (p : α → Bool) (l : List α) (a : α) :
    l.find? p = some a ↔
      p a = true ∧ ∃ l₁ l₂, l = l₁ ++ a :: l₂ ∧ ∀ x ∈ l₁, p x = false := by
  induction l with
  | nil =>
    constructor
    · intro h; simp [List.find?] at h
    · rintro ⟨-, l₁, l₂, h, -⟩
      cases l₁ <;> simp at h
  | cons b t ih =>
    by_cases hb : p b = true
    · rw [List.find?_cons_of_pos t hb]
      constructor
      · intro h
        injection h with h; subst h
        exact ⟨hb, [], t, rfl, by intro x hx; cases hx⟩
      · rintro ⟨hpa, l₁, l₂, hdec, hall⟩
        cases l₁ with
        | nil =>
          injection hdec with h1 h2
          rw [h1]
        | cons x xs =>
          injection hdec with h1 h2
          have hx := hall x (by simp)
          rw [← h1, hb] at hx
          cases hx
    · rw [List.find?_cons_of_neg t hb]
      constructor
      · intro h
        obtain ⟨hpa, l₁, l₂, hdec, hall⟩ := ih.mp h
        refine ⟨hpa, b :: l₁, l₂, by rw [hdec]; rfl, ?_⟩
        intro x hx
        rcases List.mem_cons.mp hx with hxb | hxl
        · subst hxb; exact Bool.not_eq_true _ ▸ (by simpa using hb)
        · exact hall x hxl
      · rintro ⟨hpa, l₁, l₂, hdec, hall⟩
        cases l₁ with
        | nil =>
          injection hdec with h1 h2
          rw [h1] at hb
          exact absurd hpa hb
        | cons x xs =>
          injection hdec with h1 h2
          exact ih.mpr ⟨hpa, xs, l₂, h2, fun y hy => hall y (by simp [hy])⟩

/-- C1: `coordinate` returns the first element of the source preference
list that is also present in the destination list; when no common element
exists it fails with `UnsupportedDataOrder`, and `Dispatcher::prepare`
then returns that error at once, with zero destination partitions
allocated. -/
theorem c1_coordinate_first_common (src dst : List DataOrder) :
    (∀ o : DataOrder, coordinate src dst = Except.ok o ↔
        o ∈ dst ∧ ∃ l₁ l₂, src = l₁ ++ o :: l₂ ∧ ∀ x ∈ l₁, x ∉ dst) ∧
    ((∀ o ∈ src, o ∉ dst) →
      coordinate src dst = Except.error ConnError.UnsupportedDataOrder ∧
      ∀ (S D P : Type) (sch : Schema S) (cv : S → Except ConnError D)
        (parts : List P) (nq : Nat),
        Dispatcher.prepare src dst sch cv parts nq =
          (Except.error ConnError.UnsupportedDataOrder, 0)) := by
  constructor
  · intro o
    constructor
    · intro h
      have hf : src.find? (fun x => dst.contains x) = some o := by
        revert h
        unfold coordinate
        cases hf : src.find? (fun x => dst.contains x) with
        | none => intro h; cases h
        | some a => intro h; injection h with h; rw [h]
      obtain ⟨hpa, l₁, l₂, hdec, hall⟩ := (find?_eq_some_first _ _ _).mp hf
      refine ⟨by simpa using hpa, l₁, l₂, hdec, ?_⟩
      intro x hx
      have := hall x hx
      simpa using this
    · rintro ⟨ho, l₁, l₂, hdec, hall⟩
      have hf : src.find? (fun x => dst.contains x) = some o :=
        (find?_eq_some_first _ _ _).mpr
          ⟨by simpa using ho, l₁, l₂, hdec, fun x hx => by simpa using hall x hx⟩
      unfold coordinate
      rw [hf]
  · intro hnone
    have hf : src.find? (fun x => dst.contains x) = none := by
      rw [List.find?_eq_none]
      intro x hx
      simpa using hnone x hx
    have hco : coordinate src dst = Except.error ConnError.UnsupportedDataOrder := by
      unfold coordinate
      rw [hf]
    refine ⟨hco, ?_⟩
    intro S D P sch cv parts nq
    unfold Dispatcher.prepare
    rw [hco]

/-- Closed instance of C1: a row-major-only source and a
column-major-only destination have no common order, so `prepare` fails
with `UnsupportedDataOrder` allocating nothing. -/
theorem c1_witness :
    coordinate [DataOrder.RowMajor] [DataOrder.ColumnMajor] =
      Except.error ConnError.UnsupportedDataOrder ∧
    Dispatcher.prepare [DataOrder.RowMajor] [DataOrder.ColumnMajor]
      (Schema.mk ["a", "b"] [0, 1]) (fun n : Nat => Except.ok (n + 1))
      ([(), ()] : List Unit) 2 =
      (Except.error ConnError.UnsupportedDataOrder, 0) :=
  ⟨((c1_coordinate_first_common _ _).2 (by decide)).1,
   ((c1_coordinate_first_common _ _).2 (by decide)).2 Nat Nat Unit _ _ _ _⟩

end ConnectorArrow

namespace ConnectorArrow

/-- A successful `mapExcept` preserves length and applies the function at
every index. -/
theorem mapExcept_ok_spec {α β : Type} (f : α → Except ConnError β) :
    ∀ (l : List α) (ys : List β), mapExcept f l = Except.ok ys →
      ys.length = l.length ∧
      ∀ (i : Nat) (hi : i < l.length) (hi2 : i < ys.length),
        f (l.get ⟨i, hi⟩) = Except.ok (ys.get ⟨i, hi2⟩) := by
  intro l
  induction l with
  | nil =>
    intro ys h
    injection h with h
    subst h
    exact ⟨rfl, fun i hi => absurd hi (Nat.not_lt_zero i)⟩
  | cons x xs ih =>
    intro ys h
    unfold mapExcept at h
    cases hfx : f x with
    | error e => rw [hfx] at h; cases h
    | ok y =>
      rw [hfx] at h
      cases hm : mapExcept f xs with
      | error e => rw [hm] at h; cases h
      | ok zs =>
        rw [hm] at h
        injection h with h
        subst h
        obtain ⟨hlen, hget⟩ := ih zs hm
        refine ⟨by simp [hlen], ?_⟩
        intro i hi hi2
        cases i with
        | zero => simpa using hfx
        | succ j =>
          simpa using hget j (by simpa using hi) (by simpa using hi2)

/-- Inversion of a successful `Dispatcher.prepare`: order negotiation and
schema conversion succeeded, and the result is built from their values. -/
theorem prepare_ok_inv {S D P : Type} {srcOrders dstOrders : List DataOrder}
    {sch : Schema S} {cv : S → Except ConnError D} {parts : List P} {nq : Nat}
    {p : PreparedDispatch S D P} {k : Nat}
    (h : Dispatcher.prepare srcOrders dstOrders sch cv parts nq = (Except.ok p, k)) :
    ∃ ord dsch, coordinate srcOrders dstOrders = Except.ok ord ∧
      Schema.convert cv sch = Except.ok dsch ∧
      p = { data_order := ord, src_partitions := parts,
            dst_partitions := List.range nq, src_schema := sch,
            dst_schema := dsch } ∧
      k = nq := by
  unfold Dispatcher.prepare at h
  cases hco : coordinate srcOrders dstOrders with
  | error e =>
    rw [hco] at h
    injection h with h1 h2
    cases h1
  | ok ord =>
    rw [hco] at h
    cases hcv : Schema.convert cv sch with
    | error e =>
      rw [hcv] at h
      injection h with h1 h2
      cases h1
    | ok dsch =>
      rw [hcv] at h
      injection h with h1 h2
      injection h1 with h1
      exact ⟨ord, dsch, rfl, rfl, h1.symm, h2.symm⟩

/-- C2: the destination schema computed by the schema conversion step of
`Dispatcher::prepare` keeps the column count and the column names of the
source schema, and every destination tag is the transport conversion of
the source tag at the same position. -/
theorem c2_schema_conversion {S D P : Type} (srcOrders dstOrders : List DataOrder)
    (sch : Schema S) (cv : S → Except ConnError D) (parts : List P) (nq : Nat)
    (p : PreparedDispatch S D P) (k : Nat)
    (h : Dispatcher.prepare srcOrders dstOrders sch cv parts nq = (Except.ok p, k)) :
    p.dst_schema.names = sch.names ∧
    p.dst_schema.names.length = sch.names.length ∧
    p.dst_schema.types.length = sch.types.length ∧
    ∀ (i : Nat) (hi : i < sch.types.length) (hi2 : i < p.dst_schema.types.length),
      cv (sch.types.get ⟨i, hi⟩) = Except.ok (p.dst_schema.types.get ⟨i, hi2⟩) := by
  obtain ⟨ord, dsch, hco, hcv, hp, hk⟩ := prepare_ok_inv h
  subst hp
  unfold Schema.convert at hcv
  cases hm : mapExcept cv sch.types with
  | error e => rw [hm] at hcv; cases hcv
  | ok tys =>
    rw [hm] at hcv
    injection hcv with hcv
    obtain ⟨hlen, hget⟩ := mapExcept_ok_spec cv sch.types tys hm
    rw [← hcv]
    exact ⟨rfl, rfl, hlen, hget⟩

/-- Closed instance of C2: a two-column schema converted by a successor
transport keeps the names and maps both tags. -/
theorem c2_witness :
    (PreparedDispatch.mk DataOrder.RowMajor ([(), ()] : List Unit) [0, 1]
        (Schema.mk ["a", "b"] [10, 20]) (Schema.mk ["a", "b"] [11, 21]) :
        PreparedDispatch Nat Nat Unit).dst_schema.names = ["a", "b"] ∧
    (Schema.mk ["a", "b"] ([11, 21] : List Nat)).types.length = 2 :=
  ⟨(c2_schema_conversion [DataOrder.RowMajor] [DataOrder.RowMajor]
      (Schema.mk ["a", "b"] [10, 20]) (fun n : Nat => Except.ok (n + 1))
      ([(), ()] : List Unit) 2 _ 2 rfl).1,
   (c2_schema_conversion [DataOrder.RowMajor] [DataOrder.RowMajor]
      (Schema.mk ["a", "b"] [10, 20]) (fun n : Nat => Except.ok (n + 1))
      ([(), ()] : List Unit) 2 _ 2 rfl).2.2.1⟩

end ConnectorArrow

namespace ConnectorArrow

/-- One cursor step from the canonical position after `k` moves within a
fresh row block: moving once more lands at the canonical position after
`k + 1` moves. -/
theorem cursor_step_formula (n : Nat) (hn : 0 < n) (r k : Nat) :
    (Cursor.next_loc n { row := r + k / n, col := k % n }).2 =
      { row := r + (k + 1) / n, col := (k + 1) % n } := by
  have hsplit : k + 1 = n * (k / n) + (k % n + 1) := by
    conv_rhs => rw [← Nat.add_assoc, Nat.div_add_mod]
  unfold Cursor.next_loc
  rw [hsplit, Nat.mul_add_div hn, Nat.mul_add_mod, Nat.add_assoc]

/-- The iterated cursor advance can also be peeled off at the far end. -/
theorem next_locN_succ_right (n k : Nat) (c : Cursor) :
    next_locN n (k + 1) c = (Cursor.next_loc n (next_locN n k c)).2 := by
  induction k generalizing c with
  | zero => rfl
  | succ j ih =>
    show next_locN n (j + 1) (Cursor.next_loc n c).2 = _
    rw [ih]
    rfl

/-- Closed form of the iterated cursor advance from column 0:
after `k` moves the cursor is at row `r + k / n`, column `k % n`. -/
theorem next_locN_from_zero (n : Nat) (hn : 0 < n) (r k : Nat) :
    next_locN n k { row := r, col := 0 } = { row := r + k / n, col := k % n } := by
  induction k with
  | zero => simp [next_locN]
  | succ j ih => rw [next_locN_succ_right, ih, cursor_step_formula n hn]

/-- The organizer advance written with division and remainder: while the
column stays in range it agrees with the parser cursor formula. -/
theorem next_col_index_eq (o : Organizer) (h : o.next_col < o.col_count) :
    o.next_col_index =
      (o.next_col,
       { o with next_row := o.next_row + (o.next_col + 1) / o.col_count,
                next_col := (o.next_col + 1) % o.col_count }) := by
  have h0 : 0 < o.col_count := Nat.lt_of_le_of_lt (Nat.zero_le _) h
  unfold Organizer.next_col_index
  by_cases hc : o.next_col + 1 = o.col_count
  · rw [if_pos hc, hc, Nat.div_self h0, Nat.mod_self]
  · rw [if_neg hc]
    have hlt : o.next_col + 1 < o.col_count := Nat.lt_of_le_of_ne h hc
    rw [Nat.div_eq_of_lt hlt, Nat.mod_eq_of_lt hlt]
    simp

/-- The iterated organizer advance mirrors the iterated parser cursor:
row and column track `next_locN` exactly, and the column layout fields are
untouched. -/
theorem organizer_stepN_cursor (k : Nat) :
    ∀ (o : Organizer), 0 < o.col_count → o.next_col < o.col_count →
      Organizer.stepN k o =
        { o with
          next_row := (next_locN o.col_count k
            { row := o.next_row, col := o.next_col }).row,
          next_col := (next_locN o.col_count k
            { row := o.next_row, col := o.next_col }).col } := by
  induction k with
  | zero => intro o h0 hc; simp [Organizer.stepN, next_locN]
  | succ j ih =>
    intro o h0 hc
    show Organizer.stepN j o.next_col_index.2 = _
    rw [next_col_index_eq o hc]
    dsimp only
    rw [ih _ (by simpa using h0) (by simpa using Nat.mod_lt (o.next_col + 1) h0)]
    rfl

/-- C3: the cell cursor of the postgres parsers and the writer organizer
advances column-first. A single advance returns the current position and
then sets the column to `(col + 1) % ncols`, incrementing the row exactly
when the column wraps to 0; and after `ncols` advances started at column 0
the row has incremented by one and the column is back at 0. -/
theorem c3_cursor_column_first (ncols r col rowc : Nat) (hn : 0 < ncols)
    (hcol : col < ncols) :
    (Cursor.next_loc ncols { row := r, col := col }).1 = (r, col) ∧
    (Cursor.next_loc ncols { row := r, col := col }).2.col = (col + 1) % ncols ∧
    (Cursor.next_loc ncols { row := r, col := col }).2.row =
      (if (col + 1) % ncols = 0 then r + 1 else r) ∧
    (Organizer.next_col_index ⟨ncols, rowc, r, col⟩).1 = col ∧
    (Organizer.next_col_index ⟨ncols, rowc, r, col⟩).2.next_col = (col + 1) % ncols ∧
    (Organizer.next_col_index ⟨ncols, rowc, r, col⟩).2.next_row =
      (if (col + 1) % ncols = 0 then r + 1 else r) ∧
    next_locN ncols ncols { row := r, col := 0 } = { row := r + 1, col := 0 } ∧
    Organizer.stepN ncols ⟨ncols, rowc, r, 0⟩ = ⟨ncols, rowc, r + 1, 0⟩ := by
  have hdiv : (col + 1) / ncols = (if (col + 1) % ncols = 0 then 1 else 0) := by
    by_cases hc : col + 1 = ncols
    · rw [hc, Nat.div_self hn, Nat.mod_self, if_pos rfl]
    · have hlt : col + 1 < ncols := Nat.lt_of_le_of_ne hcol hc
      rw [Nat.div_eq_of_lt hlt, Nat.mod_eq_of_lt hlt,
        if_neg (Nat.succ_ne_zero col)]
  have hNfull : next_locN ncols ncols { row := r, col := 0 } =
      { row := r + 1, col := 0 } := by
    rw [next_locN_from_zero ncols hn, Nat.div_self hn, Nat.mod_self]
  have horg := next_col_index_eq ⟨ncols, rowc, r, col⟩ hcol
  refine ⟨rfl, rfl, ?_, ?_, ?_, ?_, hNfull, ?_⟩
  · show r + (col + 1) / ncols = _
    rw [hdiv]
    by_cases hz : (col + 1) % ncols = 0 <;> simp [hz]
  · rw [horg]
  · rw [horg]
  · rw [horg]
    show r + (col + 1) / ncols = _
    rw [hdiv]
    by_cases hz : (col + 1) % ncols = 0 <;> simp [hz]
  · rw [organizer_stepN_cursor ncols ⟨ncols, rowc, r, 0⟩ hn hn, hNfull]

/-- Closed instance of C3: with two columns, two advances from column 0
move the parser cursor and the organizer one full row forward. -/
theorem c3_witness :
    next_locN 2 2 { row := 5, col := 0 } = { row := 6, col := 0 } ∧
    Organizer.stepN 2 ⟨2, 7, 5, 0⟩ = ⟨2, 7, 6, 0⟩ :=
  ⟨(c3_cursor_column_first 2 5 1 7 (by decide) (by decide)).2.2.2.2.2.2.1,
   (c3_cursor_column_first 2 5 1 7 (by decide) (by decide)).2.2.2.2.2.2.2⟩

end ConnectorArrow

namespace ConnectorArrow

/-- C4: in a dispatcher-driven run, where after each fetch reporting `n`
rows exactly `n * ncols` cells are moved before the next fetch, the column
cursor is 0 at every fetch point; and whenever the column cursor is 0 the
assertion at the start of `fetch_batch` cannot abort. -/
theorem c4_fetch_only_at_col_zero (ncols : Nat) (hn : 0 < ncols) :
    (∀ (batches : List (Nat × Bool)),
      runFetchesColZero ncols batches { row := 0, col := 0 }) ∧
    (∀ (Row : Type) (bufsz : Nat) (s : PgStream Row),
      s.current_col = 0 → PgStream.fetch_batch bufsz s ≠ none) := by
  constructor
  · have key : ∀ (batches : List (Nat × Bool)) (c : Cursor),
        c.col = 0 → runFetchesColZero ncols batches c := by
      intro batches
      induction batches with
      | nil => intro c h; trivial
      | cons b rest ih =>
        intro c h
        obtain ⟨n, refill⟩ := b
        refine ⟨h, ?_⟩
        apply ih
        have hc : c = { row := c.row, col := 0 } := by
          cases c
          simp_all
        cases refill
        · show (next_locN ncols (n * ncols) c).col = 0
          rw [hc, next_locN_from_zero ncols hn, Nat.mul_mod_left]
        · show (next_locN ncols (n * ncols) { row := 0, col := 0 }).col = 0
          rw [next_locN_from_zero ncols hn, Nat.mul_mod_left]
    intro batches
    exact key batches _ rfl
  · intro Row bufsz s h
    unfold PgStream.fetch_batch
    rw [if_pos h]
    by_cases hf : s.is_finished
    · rw [if_pos hf]
      simp
    · rw [if_neg hf]
      by_cases hr : 0 < s.rowbuf.length - s.current_row
      · rw [if_pos hr]
        simp
      · rw [if_neg hr, if_neg hf]
        simp

/-- Closed instance of C4: with two columns, a run of three batches keeps
the column cursor at 0 at every fetch, and the assertion passes on a fresh
stream. -/
theorem c4_witness :
    runFetchesColZero 2 [(3, true), (2, false), (0, false)] { row := 0, col := 0 } ∧
    PgStream.fetch_batch 4 (PgStream.init 2 ([(), (), ()] : List Unit)) ≠ none :=
  ⟨(c4_fetch_only_at_col_zero 2 (by decide)).1 [(3, true), (2, false), (0, false)],
   (c4_fetch_only_at_col_zero 2 (by decide)).2 Unit 4 _ rfl⟩

/-- C6: with a single column, the row-major and the column-major traversal
loops of `Dispatcher::run` visit exactly the same cell sequence. -/
theorem c6_single_column_orders_agree (n : Nat) :
    rowMajorCells n 1 = columnMajorCells n 1 := by
  unfold rowMajorCells columnMajorCells
  have hsingle : ∀ l : List Nat, l.flatMap (fun r => [(r, 0)]) = l.map (fun r => (r, 0)) := by
    intro l
    induction l with
    | nil => rfl
    | cons x xs ih => simp [List.flatMap_cons, ih]
  have h1 : List.range 1 = [0] := rfl
  rw [h1]
  simp only [List.map_cons, List.map_nil, List.flatMap_cons, List.flatMap_nil,
    List.append_nil]
  exact hsingle (List.range n)

end ConnectorArrow

namespace ConnectorArrow

/-- C5 (amended): for the buffered binary, CSV and raw streams, a fetch
that reports `is_last = true` leaves the stream marked finished, any call
on a finished stream (with the column cursor at 0) returns exactly
`(0, true)` without changing the state, and on an empty result set the
very first call already returns `(0, true)`. For the simple stream, any
call made after the cursor has left `(0, 0)` returns `(0, true)`, and on
an empty result set (only the command-completion message) the first call
returns `(0, true)`; a repeated call while the cursor is still at `(0, 0)`
returns the full batch `(rows - 1, true)` again instead. -/
theorem c5_amended_fetch_after_last (Row : Type) (bufsz : Nat)
    (s : PgStream Row) (ss : SimpleState) :
    (∀ (n : Nat) (s1 : PgStream Row),
      PgStream.fetch_batch bufsz s = some ((n, true), s1) → s1.is_finished = true) ∧
    (s.is_finished = true → s.current_col = 0 →
      PgStream.fetch_batch bufsz s = some ((0, true), s)) ∧
    (0 < bufsz → ∀ ncols : Nat,
      PgStream.fetch_batch bufsz (PgStream.init ncols ([] : List Row)) =
        some ((0, true),
          { rowbuf := [], ncols := ncols, current_row := 0, current_col := 0,
            is_finished := true, upstream := [] })) ∧
    (¬(ss.current_row = 0 ∧ ss.current_col = 0) →
      SimpleState.fetch_batch ss = ((0, true), ss)) ∧
    (ss.rows.length = 1 → SimpleState.fetch_batch ss = ((0, true), ss)) := by
  refine ⟨?_, ?_, ?_, ?_, ?_⟩
  · intro n s1 h
    unfold PgStream.fetch_batch at h
    by_cases h0 : s.current_col = 0
    · rw [if_pos h0] at h
      by_cases hf : s.is_finished
      · rw [if_pos hf] at h
        injection h with h
        injection h with h1 h2
        rw [← h2]
        exact hf
      · rw [if_neg hf] at h
        by_cases hr : 0 < s.rowbuf.length - s.current_row
        · rw [if_pos hr] at h
          injection h with h
          injection h with h1 h2
          injection h1 with h1a h1b
          exact absurd h1b hf
        · rw [if_neg hr, if_neg hf] at h
          injection h with h
          injection h with h1 h2
          injection h1 with h1a h1b
          rw [← h2]
          exact h1b
    · rw [if_neg h0] at h
      cases h
  · intro hf h0
    unfold PgStream.fetch_batch
    rw [if_pos h0, if_pos hf]
  · intro hb ncols
    unfold PgStream.fetch_batch PgStream.init
    rw [if_pos rfl, if_neg (by simp), if_neg (by simp), if_neg (by simp)]
    simp [hb]
  · intro h
    unfold SimpleState.fetch_batch
    rw [if_neg h]
  · intro h
    unfold SimpleState.fetch_batch
    by_cases hc : ss.current_row = 0 ∧ ss.current_col = 0
    · rw [if_pos hc, h]
    · rw [if_neg hc]

/-- C5 counterexample: a simple stream holding one data row and the
command-completion message. The first fetch returns `(1, true)` and does
not change the state, so an immediately repeated fetch returns `(1, true)`
again — not `(0, true)` as the claim requires of every call made after
`is_last` became true. -/
theorem c5_counterexample :
    (SimpleState.fetch_batch
      { rows := [SimpleMsg.row [some "1"], SimpleMsg.commandComplete],
        ncols := 1, current_row := 0, current_col := 0 }).1 = (1, true) ∧
    (SimpleState.fetch_batch
      ((SimpleState.fetch_batch
        { rows := [SimpleMsg.row [some "1"], SimpleMsg.commandComplete],
          ncols := 1, current_row := 0, current_col := 0 }).2)).1 ≠ (0, true) := by
  constructor
  · rfl
  · intro h
    have : (1, true) = ((0 : Nat), true) := h
    injection this with h1 h2
    cases h1

/-- Closed instance of the amended C5: a fresh empty binary-style stream
answers `(0, true)` at once, and a simple stream whose cursor has moved
past `(0, 0)` answers `(0, true)`. -/
theorem c5_witness :
    PgStream.fetch_batch 4 (PgStream.init 3 ([] : List Unit)) =
      some ((0, true),
        { rowbuf := [], ncols := 3, current_row := 0, current_col := 0,
          is_finished := true, upstream := [] }) ∧
    SimpleState.fetch_batch
      { rows := [SimpleMsg.commandComplete], ncols := 1,
        current_row := 1, current_col := 0 } =
      ((0, true),
       { rows := [SimpleMsg.commandComplete], ncols := 1,
         current_row := 1, current_col := 0 }) :=
  ⟨(c5_amended_fetch_after_last Unit 4 (PgStream.init 3 [])
      { rows := [], ncols := 1, current_row := 0, current_col := 0 }).2.2.1
      (by decide) 3,
   (c5_amended_fetch_after_last Unit 4 (PgStream.init 3 [])
      { rows := [SimpleMsg.commandComplete], ncols := 1,
        current_row := 1, current_col := 0 }).2.2.2.1 (by decide)⟩

end ConnectorArrow

namespace ConnectorArrow

/-- C7 counterexample: a CSV stream whose current cell is empty (the CSV
encoding of NULL). Producing a non-optional `i32` fails, but with
`CannotProduce` carrying the raw cell text — not with `UnexpectedNull` as
the claim requires. -/
theorem c7_counterexample :
    csvProduceI32
      { rowbuf := [[""]], ncols := 1, current_row := 0, current_col := 0,
        is_finished := false, upstream := [] } =
      some (Except.error (ConnError.CannotProduce (some ""))) ∧
    csvProduceI32
      { rowbuf := [[""]], ncols := 1, current_row := 0, current_col := 0,
        is_finished := false, upstream := [] } ≠
      some (Except.error ConnError.UnexpectedNull) := by
  constructor
  · rfl
  · intro h
    have heq : (some (Except.error (ConnError.CannotProduce (some ""))) :
        Option (Except ConnError (Int × PgStream (List String)))) =
        some (Except.error ConnError.UnexpectedNull) := by
      rw [← h]
      rfl
    injection heq with heq
    injection heq with heq
    cases heq

/-- C7 (amended): a NULL cell read into a non-optional value type fails,
but not with `UnexpectedNull`: the CSV stream fails with `CannotProduce`
carrying the raw (empty) cell text, and the simple stream fails with the
anyhow error "Cannot parse NULL in NOT NULL column."; reading the same
cell as an optional value yields `none` without error in both streams. -/
theorem c7_amended_null_handling (s : PgStream (List String)) (ss : SimpleState)
    (cells : List (Option String)) :
    (cellAt s s.current_row s.current_col = some "" →
      csvProduceI32 s = some (Except.error (ConnError.CannotProduce (some ""))) ∧
      csvProduceI32Opt s = some (Except.ok (none, s.next_loc.2))) ∧
    (ss.rows.get? ss.current_row = some (SimpleMsg.row cells) →
      cells.get? ss.current_col = some none →
      simpleProduceI32 ss =
        some (Except.error
          (ConnError.AnyhowError "Cannot parse NULL in NOT NULL column.")) ∧
      simpleProduceI32Opt ss = some (Except.ok (none, ss.next_loc.2))) := by
  constructor
  · intro h
    constructor
    · unfold csvProduceI32
      rw [show s.next_loc = ((s.current_row, s.current_col), s.next_loc.2) from rfl]
      dsimp only
      rw [h]
      rfl
    · unfold csvProduceI32Opt
      rw [show s.next_loc = ((s.current_row, s.current_col), s.next_loc.2) from rfl]
      dsimp only
      rw [h]
      dsimp only
      rw [if_pos rfl]
  · intro hrow hcell
    constructor
    · unfold simpleProduceI32
      rw [show ss.next_loc = ((ss.current_row, ss.current_col), ss.next_loc.2) from rfl]
      dsimp only
      rw [hrow]
      dsimp only
      rw [hcell]
    · unfold simpleProduceI32Opt
      rw [show ss.next_loc = ((ss.current_row, ss.current_col), ss.next_loc.2) from rfl]
      dsimp only
      rw [hrow]
      dsimp only
      rw [hcell]

/-- Closed instance of the amended C7: concrete one-cell streams with a
NULL cell. -/
theorem c7_witness :
    csvProduceI32Opt
      { rowbuf := [[""]], ncols := 1, current_row := 0, current_col := 0,
        is_finished := false, upstream := [] } =
      some (Except.ok (none,
        { rowbuf := [[""]], ncols := 1, current_row := 1, current_col := 0,
          is_finished := false, upstream := [] })) ∧
    simpleProduceI32
      { rows := [SimpleMsg.row [none], SimpleMsg.commandComplete], ncols := 1,
        current_row := 0, current_col := 0 } =
      some (Except.error
        (ConnError.AnyhowError "Cannot parse NULL in NOT NULL column.")) :=
  ⟨((c7_amended_null_handling
      { rowbuf := [[""]], ncols := 1, current_row := 0, current_col := 0,
        is_finished := false, upstream := [] }
      { rows := [SimpleMsg.row [none], SimpleMsg.commandComplete], ncols := 1,
        current_row := 0, current_col := 0 }
      [none]).1 rfl).2,
   ((c7_amended_null_handling
      { rowbuf := [[""]], ncols := 1, current_row := 0, current_col := 0,
        is_finished := false, upstream := [] }
      { rows := [SimpleMsg.row [none], SimpleMsg.commandComplete], ncols := 1,
        current_row := 0, current_col := 0 }
      [none]).2 rfl rfl).1⟩

end ConnectorArrow

namespace ConnectorArrow

/-- C8: the CSV timestamptz produce appends `":00"` to the raw cell text
and parses the result as a UTC datetime; the cell
`1970-01-01 00:00:01+00` produces exactly the UTC instant one second
after the epoch, and a cell that does not parse after the append fails
with `CannotProduce` carrying the raw (unappended) cell text. -/
theorem c8_csv_timestamptz (s : PgStream (List String)) (cell : String)
    (h : cellAt s s.current_row s.current_col = some cell) :
    (∀ t : Int, parseDateTimeTz (cell ++ ":00") = some t →
      csvProduceTimestamptz s = some (Except.ok (t, s.next_loc.2))) ∧
    (parseDateTimeTz (cell ++ ":00") = none →
      csvProduceTimestamptz s =
        some (Except.error (ConnError.CannotProduce (some cell)))) ∧
    (cell = "1970-01-01 00:00:01+00" →
      csvProduceTimestamptz s = some (Except.ok (1, s.next_loc.2))) := by
  have hred : csvProduceTimestamptz s =
      some (match parseDateTimeTz (cell ++ ":00") with
        | some t => Except.ok (t, s.next_loc.2)
        | none => Except.error (ConnError.CannotProduce (some cell))) := by
    unfold csvProduceTimestamptz
    rw [show s.next_loc = ((s.current_row, s.current_col), s.next_loc.2) from rfl]
    dsimp only
    rw [h]
  refine ⟨?_, ?_, ?_⟩
  · intro t hp
    rw [hred, hp]
  · intro hp
    rw [hred, hp]
  · intro hc
    subst hc
    rw [hred,
      show parseDateTimeTz ("1970-01-01 00:00:01+00" ++ ":00") = some 1 by decide]

/-- Closed instance of C8: a one-cell CSV stream holding the epoch-plus-one
timestamptz cell produces the UTC instant 1. -/
theorem c8_witness :
    csvProduceTimestamptz
      { rowbuf := [["1970-01-01 00:00:01+00"]], ncols := 1, current_row := 0,
        current_col := 0, is_finished := false, upstream := [] } =
      some (Except.ok ((1 : Int),
        { rowbuf := [["1970-01-01 00:00:01+00"]], ncols := 1, current_row := 1,
          current_col := 0, is_finished := false, upstream := [] })) :=
  (c8_csv_timestamptz
    { rowbuf := [["1970-01-01 00:00:01+00"]], ncols := 1, current_row := 0,
      current_col := 0, is_finished := false, upstream := [] }
    "1970-01-01 00:00:01+00" rfl).2.2 rfl

/-- C9: the CSV bool produce yields true exactly on cell text `"t"` and
false exactly on `"f"`, failing with `CannotProduce` (raw text attached)
on any other text; the optional produce implementations yield `none`
exactly when the cell text is empty. -/
theorem c9_csv_bool_and_null_encoding (s : PgStream (List String)) (cell : String)
    (h : cellAt s s.current_row s.current_col = some cell) :
    (csvProduceBool s = some (Except.ok (true, s.next_loc.2)) ↔ cell = "t") ∧
    (csvProduceBool s = some (Except.ok (false, s.next_loc.2)) ↔ cell = "f") ∧
    (cell ≠ "t" → cell ≠ "f" →
      csvProduceBool s = some (Except.error (ConnError.CannotProduce (some cell)))) ∧
    (csvProduceBoolOpt s = some (Except.ok (none, s.next_loc.2)) ↔ cell = "") ∧
    (csvProduceI32Opt s = some (Except.ok (none, s.next_loc.2)) ↔ cell = "") := by
  have hred : csvProduceBool s =
      some (if cell = "t" then Except.ok (true, s.next_loc.2)
        else if cell = "f" then Except.ok (false, s.next_loc.2)
        else Except.error (ConnError.CannotProduce (some cell))) := by
    unfold csvProduceBool
    rw [show s.next_loc = ((s.current_row, s.current_col), s.next_loc.2) from rfl]
    dsimp only
    rw [h]
  have hredOpt : csvProduceBoolOpt s =
      some (if cell = "" then Except.ok (none, s.next_loc.2)
        else if cell = "t" then Except.ok (some true, s.next_loc.2)
        else if cell = "f" then Except.ok (some false, s.next_loc.2)
        else Except.error (ConnError.CannotProduce (some cell))) := by
    unfold csvProduceBoolOpt
    rw [show s.next_loc = ((s.current_row, s.current_col), s.next_loc.2) from rfl]
    dsimp only
    rw [h]
  have hredI : csvProduceI32Opt s =
      some (if cell = "" then Except.ok (none, s.next_loc.2)
        else match parseRustI32 cell with
          | some v => Except.ok (some v, s.next_loc.2)
          | none => Except.error (ConnError.CannotProduce (some cell))) := by
    unfold csvProduceI32Opt
    rw [show s.next_loc = ((s.current_row, s.current_col), s.next_loc.2) from rfl]
    dsimp only
    rw [h]
  refine ⟨?_, ?_, ?_, ?_, ?_⟩
  · rw [hred]
    by_cases h1 : cell = "t"
    · simp [h1]
    · by_cases h2 : cell = "f" <;> simp [h1, h2]
  · rw [hred]
    by_cases h1 : cell = "t"
    · simp [h1]
    · by_cases h2 : cell = "f" <;> simp [h1, h2]
  · intro h1 h2
    rw [hred, if_neg h1, if_neg h2]
  · rw [hredOpt]
    by_cases h0 : cell = ""
    · simp [h0]
    · by_cases h1 : cell = "t"
      · simp [h0, h1]
      · by_cases h2 : cell = "f" <;> simp [h0, h1, h2]
  · rw [hredI]
    by_cases h0 : cell = ""
    · simp [h0]
    · cases hp : parseRustI32 cell <;> simp [h0, hp]

/-- Closed instance of C9: a CSV stream whose current cell is `"t"`
produces true, and one whose current cell is empty produces an optional
NULL. -/
theorem c9_witness :
    csvProduceBool
      { rowbuf := [["t"]], ncols := 1, current_row := 0, current_col := 0,
        is_finished := false, upstream := [] } =
      some (Except.ok (true,
        { rowbuf := [["t"]], ncols := 1, current_row := 1, current_col := 0,
          is_finished := false, upstream := [] })) ∧
    csvProduceBoolOpt
      { rowbuf := [[""]], ncols := 1, current_row := 0, current_col := 0,
        is_finished := false, upstream := [] } =
      some (Except.ok (none,
        { rowbuf := [[""]], ncols := 1, current_row := 1, current_col := 0,
          is_finished := false, upstream := [] })) :=
  ⟨(c9_csv_bool_and_null_encoding
      { rowbuf := [["t"]], ncols := 1, current_row := 0, current_col := 0,
        is_finished := false, upstream := [] } "t" rfl).1.mpr rfl,
   (c9_csv_bool_and_null_encoding
      { rowbuf := [[""]], ncols := 1, current_row := 0, current_col := 0,
        is_finished := false, upstream := [] } "" rfl).2.2.2.1.mpr rfl⟩

end ConnectorArrow

namespace ConnectorArrow

/-- C10: `prepare` allocates exactly one destination writer per query, in
order, and `run` pairs writer `i` with source partition `i` positionally
through `zip_eq`; when the source yields a number of partitions different
from the query count, the `zip_eq` pairing aborts the process (modelled by
`none`) instead of returning an error value. -/
theorem c10_partition_pairing {S D P : Type} (srcOrders dstOrders : List DataOrder)
    (sch : Schema S) (cv : S → Except ConnError D) (parts : List P) (nq : Nat)
    (p : PreparedDispatch S D P) (k : Nat)
    (h : Dispatcher.prepare srcOrders dstOrders sch cv parts nq = (Except.ok p, k)) :
    p.dst_partitions = List.range nq ∧
    p.dst_partitions.length = nq ∧
    k = nq ∧
    p.src_partitions = parts ∧
    (parts.length ≠ nq → zipEq p.dst_partitions p.src_partitions = none) ∧
    (parts.length = nq →
      ∃ pairs, zipEq p.dst_partitions p.src_partitions = some pairs ∧
        pairs.length = nq ∧
        ∀ (i : Nat) (hi : i < pairs.length) (hp : i < parts.length),
          pairs.get ⟨i, hi⟩ = (i, parts.get ⟨i, hp⟩)) := by
  obtain ⟨ord, dsch, hco, hcv, hp, hk⟩ := prepare_ok_inv h
  subst hp
  refine ⟨rfl, List.length_range nq, hk, rfl, ?_, ?_⟩
  · intro hne
    unfold zipEq
    rw [if_neg]
    dsimp only
    rw [List.length_range nq]
    exact fun hx => hne hx.symm
  · intro heq
    refine ⟨(List.range nq).zip parts, ?_, ?_, ?_⟩
    · unfold zipEq
      rw [if_pos]
      dsimp only
      rw [List.length_range nq, heq]
    · rw [List.length_zip, List.length_range nq, heq, Nat.min_self]
    · intro i hi hp2
      rw [List.get_eq_getElem, List.get_eq_getElem, List.getElem_zip,
        List.getElem_range]

/-- Closed instance of C10: two writers are allocated for two queries and
pair positionally with two partitions, while three partitions make the
pairing abort. -/
theorem c10_witness :
    zipEq [0, 1] ([7, 7, 7] : List Nat) = none ∧
    (PreparedDispatch.mk DataOrder.RowMajor ([7, 7, 7] : List Nat) [0, 1]
      (Schema.mk ["a"] [10]) (Schema.mk ["a"] [11]) :
      PreparedDispatch Nat Nat Nat).dst_partitions = [0, 1] :=
  ⟨(c10_partition_pairing [DataOrder.RowMajor] [DataOrder.RowMajor]
      (Schema.mk ["a"] [10]) (fun n : Nat => Except.ok (n + 1))
      ([7, 7, 7] : List Nat) 2 _ 2 rfl).2.2.2.2.1 (by decide),
   (c10_partition_pairing [DataOrder.RowMajor] [DataOrder.RowMajor]
      (Schema.mk ["a"] [10]) (fun n : Nat => Except.ok (n + 1))
      ([7, 7, 7] : List Nat) 2 _ 2 rfl).1⟩

end ConnectorArrow
